import Mathlib

/-!
Verification of the lambda-resource Concourse resource (Go).

The repository contains two historical variants of several files (a Zipcar
fork and a Sydsvenskan fork, concatenated in the source tree); where the
claims cite both, both are embedded.  Suffix `1` marks the variant that
works over `concourse.ResourceVersion` string maps (check.go first half,
in.go first half, out.go), suffix `2` the variant working over the typed
`Version` struct (check.go second half, in.go second half), and suffix `3`
the `part_004` variant of the in command.

External collaborators (the AWS Lambda management API, the filesystem and
JSON wire encoding) are modelled as scripted inputs: files as an
association list of path/contents, each API operation's reply as a
pre-supplied `Except`, exactly in the style the spec prescribes for test
doubles.  Every handler is embedded as a pure function from those inputs
to its Go return values plus the trace of API calls it performed.
-/

namespace LambdaResource

/-- `concourse.ResourceVersion` is `map[string]string`; modelled as an
association list where lookup returns the first binding. -/
abbrev ResourceVersion := List (String × String)

/-- Go map indexing `m[k]` with the `ok` flag (`none` = key absent). -/
def rvLookup (m : ResourceVersion) (k : String) : Option String :=
  match m with
  | [] => none
  | (k2, v) :: rest => if k2 = k then some v else rvLookup rest k

/-- Setting a key on a Go string map: replace the binding if present,
otherwise add it. -/
def rvSet (m : ResourceVersion) (k v : String) : ResourceVersion :=
  match m with
  | [] => [(k, v)]
  | (k2, v2) :: rest => if k2 = k then (k, v) :: rest else (k2, v2) :: rvSet rest k v

/-- Digit run accumulator for `atoi?`; fails on the first non-digit. -/
def parseDigitsAux : List Char → Nat → Option Nat
  | [], acc => some acc
  | c :: rest, acc =>
    if c.isDigit then parseDigitsAux rest (acc * 10 + (c.toNat - 48)) else none

/-- `strconv.Atoi`: optional single leading sign, then one or more digits,
nothing else; the value must fit in a 64-bit `int` (the resource is built
for GOARCH=amd64), otherwise `ErrRange` makes `Atoi` report an error. -/
def atoi? (s : String) : Option Int :=
  let cs := s.toList
  let signed : Bool × List Char :=
    match cs with
    | '-' :: rest => (true, rest)
    | '+' :: rest => (false, rest)
    | _ => (false, cs)
  match signed.2 with
  | [] => none
  | ds =>
    match parseDigitsAux ds 0 with
    | none => none
    | some n =>
      let v : Int := if signed.1 then -(n : Int) else (n : Int)
      if v < -(2 ^ 63) ∨ 2 ^ 63 - 1 < v then none else some v

/-- check.go (variant 1) `getVersionNumber`: the baseline's `"version"`
entry parsed with `Atoi`; `nil` map, missing key and parse failure all
yield `nil`. -/
def getVersionNumber : Option ResourceVersion → Option Int
  | none => none
  | some v =>
    match rvLookup v "version" with
    | some s => atoi? s
    | none => none

/-- The filter condition `incomingVersion == nil || itemVersion > *incomingVersion`. -/
def newerThan (incoming : Option Int) (n : Int) : Bool :=
  match incoming with
  | none => true
  | some i => i < n

/-- Failure modes of the check handlers: a wrapped `strconv.Atoi` error, or
the runtime panic raised by the slice expression
`newVersions[len(newVersions)-1:]` when `newVersions` is empty. -/
inductive CheckFailure
  | parseError (s : String)
  | sliceOutOfRange
deriving DecidableEq, Repr

/-- The unaliased collection loop of check.go (variant 1), over the
concatenation of all pages returned by `ListVersionsByFunction`:
skip `"$LATEST"`, fail on a non-numeric version, keep versions newer than
the baseline, in API order, each as a `{"version": v}` record. -/
def collectNew1 (incoming : Option Int) : List String → Except CheckFailure (List ResourceVersion)
  | [] => Except.ok []
  | v :: rest =>
    if v = "$LATEST" then collectNew1 incoming rest
    else
      match atoi? v with
      | none => Except.error (CheckFailure.parseError v)
      | some itemVersion =>
        if newerThan incoming itemVersion then
          match collectNew1 incoming rest with
          | Except.error e => Except.error e
          | Except.ok l => Except.ok ([("version", v)] :: l)
        else collectNew1 incoming rest

/-- Sort key used by `ByVersion.Less` (variant 1): `Atoi` of the record's
`"version"` entry.  The Go comparator panics when the entry fails to
parse; the handler only ever sorts records whose entry it has already
parsed successfully, so the `0` default is never exercised there. -/
def versionKeyOf (r : ResourceVersion) : Int :=
  ((rvLookup r "version").bind atoi?).getD 0

/-- The (non-strict) order `sort.Sort(ByVersion(..))` establishes. -/
def vkLE (a b : ResourceVersion) : Prop := versionKeyOf a ≤ versionKeyOf b

instance : DecidableRel vkLE := fun a b =>
  (inferInstance : Decidable (versionKeyOf a ≤ versionKeyOf b))

instance : IsTotal ResourceVersion vkLE := ⟨fun a b => Int.le_total _ _⟩

instance : IsTrans ResourceVersion vkLE := ⟨fun _ _ _ => Int.le_trans⟩

/-- The Go slice expression `l[len(l)-1:]`: the one-element suffix, or a
runtime panic (`slice bounds out of range [-1:]`) when `l` is empty. -/
def lastSlice (l : List ResourceVersion) : Except CheckFailure (List ResourceVersion) :=
  match l.getLast? with
  | none => Except.error CheckFailure.sliceOutOfRange
  | some x => Except.ok [x]

/-- check.go (variant 1), unaliased mode of `CheckCommand.HandleCommand`:
`baseline` is `cmd.Version` (`none` = nil map), `versions` the version
strings delivered by paging `ListVersionsByFunction` to exhaustion.
Sorting uses insertion sort; Go's `sort.Sort` guarantees exactly a
`ByVersion`-sorted permutation, which insertion sort refines. -/
def handleCheckUnaliased1 (baseline : Option ResourceVersion) (versions : List String) :
    Except CheckFailure (List ResourceVersion) :=
  let incoming := getVersionNumber baseline
  match collectNew1 incoming versions with
  | Except.error e => Except.error e
  | Except.ok newVersions =>
    let sorted := List.insertionSort vkLE newVersions
    match baseline with
    | none => lastSlice sorted
    | some _ => Except.ok sorted

/-- check.go (variant 1), aliased mode: `cv` is the `Version` field of the
`GetFunctionConfiguration` reply for the alias qualifier. -/
def handleCheckAliased1 (baseline : Option ResourceVersion) (aliasName : String)
    (cv : String) : Except CheckFailure (List ResourceVersion) :=
  let incoming := getVersionNumber baseline
  match atoi? cv with
  | none => Except.error (CheckFailure.parseError cv)
  | some itemVersion =>
    Except.ok
      (if newerThan incoming itemVersion then [[("version", cv), ("alias", aliasName)]]
       else [])

/-- The typed `Version` struct of the variant-2 resource (part_003). -/
structure VersionS where
  codeSha : String
  version : Int
  timestamp : Int
deriving DecidableEq, Repr

/-- The unaliased collection loop of check.go (variant 2): identical to
variant 1 except that a version failing to parse is silently skipped and
the code digest is carried along.  Input pairs are (Version, CodeSha256). -/
def collectNew2 (baseline : Option Int) : List (String × String) → List VersionS
  | [] => []
  | (v, sha) :: rest =>
    if v = "$LATEST" then collectNew2 baseline rest
    else
      match atoi? v with
      | none => collectNew2 baseline rest
      | some version =>
        if (match baseline with | none => true | some b => b < version) then
          ⟨sha, version, 0⟩ :: collectNew2 baseline rest
        else collectNew2 baseline rest

/-- Variant-2 `ByVersion` order. -/
def vsLE (a b : VersionS) : Prop := a.version ≤ b.version

instance : DecidableRel vsLE := fun a b =>
  (inferInstance : Decidable (a.version ≤ b.version))

instance : IsTotal VersionS vsLE := ⟨fun a b => Int.le_total _ _⟩

instance : IsTrans VersionS vsLE := ⟨fun _ _ _ => Int.le_trans⟩

/-- check.go (variant 2), unaliased mode: `baseline` is the `Version` field
of `cmd.Version` (`none` = nil pointer).  The final slice expression
panics on an empty list exactly as in variant 1. -/
def handleCheckUnaliased2 (baseline : Option Int) (versions : List (String × String)) :
    Except CheckFailure (List VersionS) :=
  let newVersions := collectNew2 baseline versions
  let sorted := List.insertionSort vsLE newVersions
  match baseline with
  | none =>
    match sorted.getLast? with
    | none => Except.error CheckFailure.sliceOutOfRange
    | some x => Except.ok [x]
  | some _ => Except.ok sorted

/-- check.go (variant 2), aliased mode: emits when the baseline is absent
or the alias's current version differs from it (`!=`, not `>`). -/
def handleCheckAliased2 (baseline : Option Int) (cv : String) (sha : String) :
    Except CheckFailure (List VersionS) :=
  match atoi? cv with
  | none => Except.error (CheckFailure.parseError cv)
  | some version =>
    Except.ok
      (if (match baseline with | none => true | some b => version ≠ b) then
        [⟨sha, version, 0⟩]
       else [])

/-! ### Put (out.go) -/

/-- `PutParams` of out.go. -/
structure PutParams where
  zipFile : Option String
  codeDirectory : Option String
  codeFile : Option String
  aliasP : Option String
  version : Option String
  versionFile : Option String
deriving DecidableEq, Repr

/-- `hasCodePayload`. -/
def hasCodePayload (p : PutParams) : Bool :=
  p.zipFile.isSome || p.codeDirectory.isSome || p.codeFile.isSome

/-- `bytes.TrimRight(data, "\n\r")`: drop every trailing newline or
carriage-return byte. -/
def trimRightNewlines (s : String) : String :=
  String.mk ((s.toList.reverse.dropWhile (fun c => c == '\n' || c == '\r')).reverse)

/-- The `UpdateFunctionCode` reply fields the handler reads. -/
structure FunctionConfig where
  version : String
  codeSha256 : String
  functionArn : String
  runtime : String
  timeout : Int
  memorySize : Int
deriving DecidableEq, Repr

/-- The `UpdateAlias` reply fields the handler reads. -/
structure AliasConfig where
  name : String
  functionVersion : String
deriving DecidableEq, Repr

/-- The management-API calls the put handler can perform, with the
arguments it passes. -/
inductive ApiCall
  | updateFunctionCode (zip : List Nat)
  | updateAlias (aliasName : String) (functionVersion : String)
deriving DecidableEq, Repr

/-- The error returns of `OutCommand.HandleCommand`, one constructor per
`return nil/resp, err` site. -/
inductive OutError
  | readVersionFile (path : String)
  | emptyVersion
  | invalidVersion (s : String)
  | codePayload (msg : String)
  | updateCode (msg : String)
  | persistVersion (msg : String)
  | setAlias (aliasName : String) (version : String) (msg : String)
deriving DecidableEq, Repr

/-- `concourse.CommandResponse` as built by the variant-1 handlers:
an optional single version record plus `AddMeta` name/value pairs. -/
structure CommandResponseV where
  version : Option ResourceVersion
  metadata : List (String × String)
deriving DecidableEq, Repr

/-- Scripted environment for the put handler: the readable files, and the
reply each external operation would produce if called.  Archive
construction (`codePayload`: reading the zip, zipping a directory or a
single file) is plumbing outside the core per the spec, so its outcome is
scripted as a whole. -/
structure OutEnv where
  files : List (String × String)
  codePayloadResult : Except String (List Nat)
  updateCodeResult : Except String FunctionConfig
  writeVersionResult : Option String
  updateAliasResult : Except String AliasConfig
deriving Repr

/-- What `OutCommand.HandleCommand` produces: the trace of management-API
calls plus its Go return pair `(*CommandResponse, error)`. -/
structure OutResult where
  calls : List ApiCall
  response : Option CommandResponseV
  error : Option OutError
deriving DecidableEq, Repr

/-- Step 1 of out.go: the explicit `version` param, overridden by the
trimmed contents of `version_file` when that is set. -/
def resolveVersion (files : List (String × String)) (p : PutParams) :
    Except OutError (Option String) :=
  match p.versionFile with
  | none => Except.ok p.version
  | some vf =>
    match rvLookup files vf with
    | none => Except.error (OutError.readVersionFile vf)
    | some data => Except.ok (some (trimRightNewlines data))

/-- The version-number sanity check of out.go: a resolved version must be
non-empty and `Atoi`-parseable; no resolved version passes vacuously. -/
def versionSanity (v : Option String) : Option OutError :=
  match v with
  | none => none
  | some s =>
    if s.length = 0 then some OutError.emptyVersion
    else
      match atoi? s with
      | none => some (OutError.invalidVersion s)
      | some _ => none

/-- The alias-tagging tail of out.go: if both an alias param and a version
are at hand, call `UpdateAlias`; on failure return the error together with
the response built so far; on success fold the alias into the response's
version record. -/
def aliasStep (calls : List ApiCall) (env : OutEnv) (p : PutParams)
    (resp : CommandResponseV) (version : Option String) : OutResult :=
  match p.aliasP, version with
  | some a, some v =>
    let calls2 := calls ++ [ApiCall.updateAlias a v]
    match env.updateAliasResult with
    | Except.error e => ⟨calls2, some resp, some (OutError.setAlias a v e)⟩
    | Except.ok _ =>
      let newResp : CommandResponseV :=
        match resp.version with
        | none => ⟨some [("alias", a), ("version", v)], resp.metadata⟩
        | some rv => ⟨some (rvSet rv "alias" a), resp.metadata⟩
      ⟨calls2, some newResp, none⟩
  | _, _ => ⟨calls, some resp, none⟩

/-- `OutCommand.HandleCommand` (out.go): resolve and sanity-check the
version, optionally upload a code payload with publish-on-update (the
freshly published version then supersedes the resolved one and the
response gains the version record, a persisted `version` file and the
arn/runtime/timeout/memory metadata), then optionally retarget the alias. -/
def handleOut (env : OutEnv) (p : PutParams) : OutResult :=
  match resolveVersion env.files p with
  | Except.error e => ⟨[], none, some e⟩
  | Except.ok version0 =>
    match versionSanity version0 with
    | some e => ⟨[], none, some e⟩
    | none =>
      let resp0 : CommandResponseV := ⟨none, []⟩
      if hasCodePayload p then
        match env.codePayloadResult with
        | Except.error e => ⟨[], none, some (OutError.codePayload e)⟩
        | Except.ok data =>
          match env.updateCodeResult with
          | Except.error e =>
            ⟨[ApiCall.updateFunctionCode data], none, some (OutError.updateCode e)⟩
          | Except.ok config =>
            match env.writeVersionResult with
            | some e =>
              ⟨[ApiCall.updateFunctionCode data], none, some (OutError.persistVersion e)⟩
            | none =>
              let resp1 : CommandResponseV :=
                ⟨some [("version", config.version)],
                 [("arn", config.functionArn), ("runtime", config.runtime),
                  ("timeout", toString config.timeout),
                  ("memory", toString config.memorySize)]⟩
              aliasStep [ApiCall.updateFunctionCode data] env p resp1 (some config.version)
      else
        aliasStep [] env p resp0 version0

/-! ### Get (in.go, part_004) and InvokeFunction -/

/-- `Source` (types.go); credentials and region are carried but unused by
the embedded logic. -/
structure SourceM where
  keyID : String
  accessKey : String
  regionName : String
  functionName : String
  funcAlias : Option String
deriving DecidableEq, Repr

/-- `PayloadSpec`: the inline payload is carried as its JSON serialization
(`json.Marshal` of the decoded value), `none` = nil interface. -/
structure PayloadSpecM where
  payload : Option String
  payloadFile : Option String
deriving DecidableEq, Repr

/-- `PayloadSpec.HasPayload`. -/
def hasPayload (spec : PayloadSpecM) : Bool :=
  spec.payload.isSome || spec.payloadFile.isSome

/-- `payloadData`: inline payload serialized verbatim, else the payload
file's bytes, else nil. -/
def payloadData (files : List (String × String)) (spec : PayloadSpecM) :
    Except String (Option String) :=
  match spec.payload with
  | some j => Except.ok (some j)
  | none =>
    match spec.payloadFile with
    | some f =>
      match rvLookup files f with
      | none => Except.error "failed to read payload file"
      | some d => Except.ok (some d)
    | none => Except.ok none

/-- The structured `FunctionError` decoded from a failed invocation's
payload. -/
structure FunctionErrorM where
  message : String
  errorType : String
  stackTrace : List String
deriving DecidableEq, Repr

/-- The `Invoke` reply fields the handlers read: the response payload and
the `FunctionError` marker (`none` = the field was absent). -/
structure InvokeOut where
  payload : String
  functionError : Option String
deriving DecidableEq, Repr

/-- A performed `Invoke` call: qualified function name and payload bytes. -/
inductive InvokeCall
  | invoke (qualifiedName : String) (payload : String)
deriving DecidableEq, Repr

/-- Error returns of `InvokeFunction` and the in handlers. -/
inductive InErr
  | payloadData (msg : String)
  | invokeFailed (msg : String)
  | feUnmarshal (msg : String)
  | functionFailed (fe : FunctionErrorM)
  | persistFailed (msg : String)
  | notInvoked
deriving DecidableEq, Repr

/-- Scripted environment for the in handlers: readable files, the `Invoke`
reply, the decode of a function-error payload (JSON parsing is the wire
boundary), the outcome of `PersistResult`, the outcome of the
`ctx.File("version", ..)` write in part_004, and the current Unix time. -/
structure InEnv where
  files : List (String × String)
  invokeResult : Except String InvokeOut
  feDecode : Except String FunctionErrorM
  persistResult : Option String
  writeVersionResult : Option String
  now : Int
deriving Repr

/-- `name += ":" + *alias` when an alias is at hand. -/
def qualifiedName (functionName : String) (aliasOpt : Option String) : String :=
  match aliasOpt with
  | some a => functionName ++ ":" ++ a
  | none => functionName

/-- `InvokeFunction`: resolve payload bytes; with empty bytes return
`(nil, nil)` without calling `Invoke`; otherwise call `Invoke` on
`name[:alias]` and surface a `FunctionError` payload as a typed failure.
Returns the call trace plus the Go pair `(*lambda.InvokeOutput, error)`. -/
def InvokeFunctionM (env : InEnv) (functionName : String) (aliasOpt : Option String)
    (spec : PayloadSpecM) : List InvokeCall × Option InvokeOut × Option InErr :=
  match payloadData env.files spec with
  | Except.error e => ([], none, some (InErr.payloadData e))
  | Except.ok dataOpt =>
    let data := dataOpt.getD ""
    if data.length = 0 then ([], none, none)
    else
      let name := qualifiedName functionName aliasOpt
      match env.invokeResult with
      | Except.error e => ([InvokeCall.invoke name data], none, some (InErr.invokeFailed e))
      | Except.ok result =>
        match result.functionError with
        | none => ([InvokeCall.invoke name data], some result, none)
        | some _ =>
          match env.feDecode with
          | Except.error e =>
            ([InvokeCall.invoke name data], some result, some (InErr.feUnmarshal e))
          | Except.ok fe =>
            ([InvokeCall.invoke name data], some result, some (InErr.functionFailed fe))

/-- `InParams` alias resolution shared by all in variants: the params
alias overrides the source alias. -/
def effectiveAlias (sourceAlias paramsAlias : Option String) : Option String :=
  match paramsAlias with
  | some a => some a
  | none => sourceAlias

/-- `InCommand.HandleCommand`, variant 1 (in.go, first half).  Note that
on a non-nil result it returns `nil, errors.Wrap(PersistResult(..), ..)`
and `errors.Wrap(nil, ..)` is `nil`, so a successful invoke+persist yields
`(nil, nil)`; the trailing timestamp return is unreachable because the
two preceding `if`s on `result` are exhaustive. -/
def handleIn1 (env : InEnv) (source : SourceM) (paramsAlias : Option String)
    (spec : PayloadSpecM) : List InvokeCall × Option CommandResponseV × Option InErr :=
  let aliasOpt := effectiveAlias source.funcAlias paramsAlias
  match InvokeFunctionM env source.functionName aliasOpt spec with
  | (calls, result, some e) => (calls, none, some e)
  | (calls, result, none) =>
    if result.isSome then
      (calls, none, env.persistResult.map InErr.persistFailed)
    else if result.isNone then
      (calls, none, some InErr.notInvoked)
    else
      (calls, some ⟨some [("timestamp", toString env.now)], []⟩, none)

/-- `InCommand.HandleCommand`, variant 2 (in.go, second half): identical
except the not-invoked case returns an empty `CommandResponse` with no
error. -/
def handleIn2 (env : InEnv) (source : SourceM) (paramsAlias : Option String)
    (spec : PayloadSpecM) : List InvokeCall × Option CommandResponseV × Option InErr :=
  let aliasOpt := effectiveAlias source.funcAlias paramsAlias
  match InvokeFunctionM env source.functionName aliasOpt spec with
  | (calls, result, some e) => (calls, none, some e)
  | (calls, result, none) =>
    if result.isSome then
      (calls, none, env.persistResult.map InErr.persistFailed)
    else if result.isNone then
      (calls, some ⟨none, []⟩, none)
    else
      (calls, some ⟨some [("timestamp", toString env.now)], []⟩, none)

/-- `InCommand.HandleCommand`, variant 3 (part_004): only invokes when
`HasPayload()`; otherwise persists `cmd.Version["version"]` when a version
was supplied (the implicit post-`put` get) and echoes `cmd.Version` back.
On a non-nil invoke result it has the same `errors.Wrap(nil)` shape as
variant 1; its timestamp return is reachable only when `HasPayload()` held
but the payload bytes were empty (`result == nil`). -/
def handleIn3 (env : InEnv) (source : SourceM) (paramsAlias : Option String)
    (spec : PayloadSpecM) (cmdVersion : Option ResourceVersion) :
    List InvokeCall × Option CommandResponseV × Option InErr :=
  let aliasOpt := effectiveAlias source.funcAlias paramsAlias
  if hasPayload spec then
    match InvokeFunctionM env source.functionName aliasOpt spec with
    | (calls, result, some e) => (calls, none, some e)
    | (calls, result, none) =>
      if result.isSome then
        (calls, none, env.persistResult.map InErr.persistFailed)
      else
        (calls, some ⟨some [("timestamp", toString env.now)], []⟩, none)
  else
    match cmdVersion with
    | some v =>
      match env.writeVersionResult with
      | some e => ([], none, some (InErr.persistFailed e))
      | none => ([], some ⟨some v, []⟩, none)
    | none => ([], some ⟨none, []⟩, none)

/-! ### Command dispatch (part_000 `CommandContext.Handle`) -/

/-- The `concourse.Resource` handler set: presence of each registered
handler (a `CommandHandler` interface value, possibly nil). -/
structure ResourceSet where
  check : Option Unit
  inH : Option Unit
  outH : Option Unit
deriving DecidableEq, Repr

/-- The `handler == nil` comparison on the `ResourceHandler` interface. -/
def handlerSetIsNil (h : Option ResourceSet) : Bool := h.isNone

/-- Outcome of the dispatch prefix of `CommandContext.Handle`:
calling a method on a nil interface value is a Go runtime panic
(process dies, nothing written), `emptyWritten s` is the
empty-response-and-return path, `fatalExit` is `os.Exit(1)`, and
`proceed h` means execution reached the decode/handle/encode tail with
the resolved (possibly nil) `cmdHandler`. -/
inductive DispatchOutcome
  | panicNilInterface
  | emptyWritten (s : String)
  | fatalExit
  | proceed (cmdHandler : Option Unit)
deriving DecidableEq, Repr

/-- The `switch ctx.commandName` of `Handle`.  In each case Go first
evaluates `cmdHandler = handler.XxxHandler()`, which panics when `handler`
is the nil interface, and only then tests `handler == nil` — so inside the
`some` branch the test is always false and the empty-response write is
dead code. -/
def dispatch (commandName : String) (handler : Option ResourceSet) : DispatchOutcome :=
  match commandName with
  | "out" =>
    match handler with
    | none => DispatchOutcome.panicNilInterface
    | some hs =>
      if handlerSetIsNil (some hs) then DispatchOutcome.emptyWritten "\x7b\x7d"
      else DispatchOutcome.proceed hs.outH
  | "in" =>
    match handler with
    | none => DispatchOutcome.panicNilInterface
    | some hs =>
      if handlerSetIsNil (some hs) then DispatchOutcome.emptyWritten "\x7b\x7d"
      else DispatchOutcome.proceed hs.inH
  | "check" =>
    match handler with
    | none => DispatchOutcome.panicNilInterface
    | some hs =>
      if handlerSetIsNil (some hs) then DispatchOutcome.emptyWritten "[]"
      else DispatchOutcome.proceed hs.check
  | _ => DispatchOutcome.fatalExit

/-- `Handle` up to the point the selected handler runs: after dispatch,
`decoder.Decode(cmdHandler)` and the chdir are logged but non-fatal, and
`cmdHandler.HandleCommand(ctx)` on a nil `CommandHandler` interface is
again a runtime panic. -/
def Handle (commandName : String) (handler : Option ResourceSet) : DispatchOutcome :=
  match dispatch commandName handler with
  | DispatchOutcome.proceed none => DispatchOutcome.panicNilInterface
  | o => o

/-! ### Sanity examples (concrete evaluations of the embedding) -/

example : atoi? "42" = some 42 := by decide
example : atoi? "-7" = some (-7) := by decide
example : atoi? "" = none := by decide
example : atoi? "abc" = none := by decide
example : atoi? "$LATEST" = none := by decide
example : trimRightNewlines "42\n" = "42" := by decide
example : trimRightNewlines "42\r\n" = "42" := by decide
example :
    handleCheckUnaliased1 none ["$LATEST", "1", "3", "2"] =
      Except.ok [[("version", "3")]] := rfl
example :
    handleCheckUnaliased1 (some [("version", "1")]) ["$LATEST", "1", "3", "2"] =
      Except.ok [[("version", "2")], [("version", "3")]] := rfl
example :
    handleCheckAliased1 none "PROD" "4" =
      Except.ok [[("version", "4"), ("alias", "PROD")]] := rfl
example :
    handleCheckAliased2 (some 4) "4" "sha" = Except.ok [] := rfl
example :
    handleCheckAliased2 (some 5) "3" "sha" = Except.ok [⟨"sha", 3, 0⟩] := rfl

/-! ### C1 -/

/-- C1: the claim says an unaliased check with no baseline returns the
single maximum of the published versions, or the empty sequence when
there are none.  In both variants the truncation slice
`newVersions[len(newVersions)-1:]` is evaluated whenever the baseline is
absent, and with no published version (here the API reports only
`"$LATEST"`) it is `newVersions[-1:]`, a runtime panic — the handler
never returns the claimed empty sequence. -/
theorem checkUnaliasedEmptyPanics :
    handleCheckUnaliased1 none ["$LATEST"] = Except.error CheckFailure.sliceOutOfRange ∧
    handleCheckUnaliased2 none [("$LATEST", "sha")] =
      Except.error CheckFailure.sliceOutOfRange := by
  exact ⟨rfl, rfl⟩

/-! ### C3 -/

/-- C3: the claim says that with no handler supplied, `Handle` writes a
protocol-appropriate empty response and returns non-fatally.  In the code
each `switch` case evaluates `cmdHandler = handler.XxxHandler()` before
testing `handler == nil`, so a nil handler set panics on the nil interface
before the guard runs (and a handler set whose per-command handler is nil
panics later at `cmdHandler.HandleCommand`); the empty-response write is
unreachable in every case. -/
theorem handleNilHandlerPanics :
    Handle "check" none = DispatchOutcome.panicNilInterface ∧
    Handle "in" none = DispatchOutcome.panicNilInterface ∧
    Handle "out" none = DispatchOutcome.panicNilInterface ∧
    Handle "check" (some ⟨none, none, none⟩) = DispatchOutcome.panicNilInterface ∧
    Handle "in" (some ⟨none, none, none⟩) = DispatchOutcome.panicNilInterface ∧
    Handle "out" (some ⟨none, none, none⟩) = DispatchOutcome.panicNilInterface := by
  refine ⟨rfl, rfl, rfl, rfl, rfl, rfl⟩

/-! ### C4 -/

/-- C4 counterexample: in the `getVersionNumber` variant, an aliased check
with baseline `{"version": "5"}` and alias currently at version `"3"`
emits zero records, although the current version (3) differs from the
baseline (5) — the claim demands exactly one record in every case other
than equality. -/
theorem checkAliasedBacktrackEmitsNothing :
    handleCheckAliased1 (some [("version", "5")]) "PROD" "3" = Except.ok [] ∧
    getVersionNumber (some [("version", "5")]) = some 5 ∧
    atoi? "3" = some 3 ∧ (3 : Int) ≠ 5 := by
  refine ⟨rfl, rfl, rfl, by decide⟩

/-- C4 (amended): neither aliased variant ever emits more than one record;
the `getVersionNumber` variant emits exactly one record iff the baseline's
version number is absent (no baseline, or its `"version"` entry missing or
non-numeric) or the alias's current version is strictly greater than it,
while the struct variant emits exactly one record iff the baseline is
absent or the current version differs from it. -/
theorem checkAliasedEmission (b : Option ResourceVersion) (a cv sha : String)
    (n : Int) (b2 : Option Int) (h : atoi? cv = some n) :
    (∃ l, handleCheckAliased1 b a cv = Except.ok l ∧ l.length ≤ 1 ∧
      (l ≠ [] ↔ (getVersionNumber b = none ∨
        ∃ i, getVersionNumber b = some i ∧ i < n))) ∧
    (∃ l, handleCheckAliased2 b2 cv sha = Except.ok l ∧ l.length ≤ 1 ∧
      (l ≠ [] ↔ (b2 = none ∨ ∃ i, b2 = some i ∧ n ≠ i))) := by
  constructor
  · refine ⟨if newerThan (getVersionNumber b) n then
      [[("version", cv), ("alias", a)]] else [], ?_, ?_, ?_⟩
    · unfold handleCheckAliased1
      rw [h]
    · split <;> simp
    · cases hgv : getVersionNumber b with
      | none => simp [newerThan, hgv]
      | some i =>
        by_cases hlt : i < n <;> simp [newerThan, hgv, hlt]
  · refine ⟨if (match b2 with | none => true | some bv => decide (n ≠ bv)) then
      [⟨sha, n, 0⟩] else [], ?_, ?_, ?_⟩
    · unfold handleCheckAliased2
      rw [h]
    · split <;> simp
    · cases b2 with
      | none => simp
      | some bv =>
        by_cases hne : n = bv <;> simp [hne]

/-- C4 witness: instantiates the amended emission theorem at a concrete
parse. -/
theorem checkAliasedEmission_witness :
    (∃ l, handleCheckAliased1 none "PROD" "7" = Except.ok l ∧ l.length ≤ 1 ∧
      (l ≠ [] ↔ (getVersionNumber none = none ∨
        ∃ i, getVersionNumber none = some i ∧ i < 7))) ∧
    (∃ l, handleCheckAliased2 (some 7) "7" "sha" = Except.ok l ∧ l.length ≤ 1 ∧
      (l ≠ [] ↔ ((some (7 : Int) = none) ∨
        ∃ i, some (7 : Int) = some i ∧ (7 : Int) ≠ i))) :=
  checkAliasedEmission none "PROD" "7" "sha" 7 (some 7) (by decide)

/-! ### C9 / C10: invariants of the unaliased collection loop -/

/-- Every record produced by the variant-1 collection loop is a
`{"version": v}` singleton whose `v` was seen in the input, is not
`"$LATEST"`, and parses as an integer. -/
theorem collectNew1_mem {incoming : Option Int} :
    ∀ {vs : List String} {l : List ResourceVersion},
      collectNew1 incoming vs = Except.ok l →
      ∀ r ∈ l, ∃ v, r = [("version", v)] ∧ v ≠ "$LATEST" ∧ (atoi? v).isSome := by
  intro vs
  induction vs with
  | nil =>
    intro l h r hr
    simp only [collectNew1] at h
    cases h
    cases hr
  | cons v rest ih =>
    intro l h r hr
    simp only [collectNew1] at h
    split at h
    · exact ih h r hr
    next hv =>
      split at h
      next ha => cases h
      next nV ha =>
        split at h
        · split at h
          next => cases h
          next l2 hrec =>
            cases h
            rcases List.mem_cons.mp hr with hr1 | hr2
            · exact ⟨v, hr1, hv, by rw [ha]; rfl⟩
            · exact ih hrec r hr2
        · exact ih h r hr

/-- With no effective baseline number, the variant-1 collection loop keeps
every parseable non-`"$LATEST"` version, in input order. -/
theorem collectNew1_none_eq :
    ∀ {vs : List String},
      (∀ v ∈ vs, v ≠ "$LATEST" → (atoi? v).isSome) →
      collectNew1 none vs =
        Except.ok ((vs.filter (fun v => v != "$LATEST")).map
          (fun v => [("version", v)])) := by
  intro vs
  induction vs with
  | nil => intro _; rfl
  | cons v rest ih =>
    intro hp
    have hrest : ∀ v2 ∈ rest, v2 ≠ "$LATEST" → (atoi? v2).isSome :=
      fun v2 hv2 => hp v2 (List.mem_cons_of_mem v hv2)
    simp only [collectNew1]
    by_cases hv : v = "$LATEST"
    · rw [if_pos hv, ih hrest]
      simp [List.filter_cons, hv]
    · rw [if_neg hv]
      have hsome : (atoi? v).isSome := hp v (List.mem_cons_self v rest) hv
      cases ha : atoi? v with
      | none => rw [ha] at hsome; cases hsome
      | some nV =>
        have hnew : newerThan none nV = true := rfl
        simp only [hnew, if_true, ih hrest]
        simp [List.filter_cons, bne_iff_ne, hv]

/-- C9: no check output ever contains the floating `"$LATEST"`
pseudo-version.  In the unaliased mode `"$LATEST"` is skipped before
anything is collected; in the aliased mode the emitted version string has
passed `strconv.Atoi`, which `"$LATEST"` cannot.  (In the variant-2
handlers the emitted version is an integer field, where `"$LATEST"` is not
even representable.) -/
theorem checkNeverReturnsLatest :
    (∀ b vs l, handleCheckUnaliased1 b vs = Except.ok l →
      ∀ r ∈ l, rvLookup r "version" ≠ some "$LATEST") ∧
    (∀ b a cv l, handleCheckAliased1 b a cv = Except.ok l →
      ∀ r ∈ l, rvLookup r "version" ≠ some "$LATEST") := by
  constructor
  · intro b vs l h r hr
    simp only [handleCheckUnaliased1] at h
    cases hc : collectNew1 (getVersionNumber b) vs with
    | error e => rw [hc] at h; cases h
    | ok nv =>
      rw [hc] at h
      have hmem : r ∈ nv := by
        cases b with
        | none =>
          simp only [lastSlice] at h
          cases hlast : (List.insertionSort vkLE nv).getLast? with
          | none => rw [hlast] at h; cases h
          | some x =>
            rw [hlast] at h
            cases h
            have hx : r ∈ List.insertionSort vkLE nv := by
              cases List.mem_singleton.mp hr
              exact List.mem_of_getLast?_eq_some hlast
            exact (List.mem_insertionSort vkLE).mp hx
        | some b0 =>
          cases h
          exact (List.mem_insertionSort vkLE).mp hr
      obtain ⟨v, hrv, hvne, _⟩ := collectNew1_mem hc r hmem
      subst hrv
      simp only [rvLookup, if_pos rfl]
      intro hcontra
      exact hvne (Option.some.inj hcontra)
  · intro b a cv l h r hr
    unfold handleCheckAliased1 at h
    cases ha : atoi? cv with
    | none => rw [ha] at h; cases h
    | some n =>
      rw [ha] at h
      cases h
      by_cases hn : newerThan (getVersionNumber b) n = true
      · rw [if_pos hn] at hr
        cases List.mem_singleton.mp hr
        simp only [rvLookup, if_pos rfl]
        intro hcontra
        have hcv : cv = "$LATEST" := Option.some.inj hcontra
        rw [hcv] at ha
        cases ha
      · rw [if_neg hn] at hr
        cases hr

/-- C9 witness: a concrete run of the unaliased handler, with the
conclusion instantiated at its only output record. -/
theorem checkNeverReturnsLatest_witness :
    rvLookup [("version", "1")] "version" ≠ some "$LATEST" :=
  checkNeverReturnsLatest.1 none ["$LATEST", "1"] [[("version", "1")]] rfl
    [("version", "1")] (List.mem_singleton.mpr rfl)

/-- C10: in the variant deriving the baseline number via
`getVersionNumber`, a supplied baseline whose `"version"` entry is missing
or non-numeric makes the strictly-greater filter pass everything, while
the truncate-to-newest step (keyed on the baseline *object* being nil)
does not fire — the handler returns all parseable non-`"$LATEST"`
published versions, sorted ascending. -/
theorem checkUnparsableBaselineReturnsAll (b : ResourceVersion) (vs : List String)
    (hb : getVersionNumber (some b) = none)
    (hp : ∀ v ∈ vs, v ≠ "$LATEST" → (atoi? v).isSome) :
    ∃ l, handleCheckUnaliased1 (some b) vs = Except.ok l ∧
      l.Perm ((vs.filter (fun v => v != "$LATEST")).map (fun v => [("version", v)])) ∧
      List.Sorted vkLE l := by
  refine ⟨List.insertionSort vkLE
    ((vs.filter (fun v => v != "$LATEST")).map (fun v => [("version", v)])), ?_, ?_, ?_⟩
  · simp only [handleCheckUnaliased1]
    rw [hb, collectNew1_none_eq hp]
  · exact List.perm_insertionSort vkLE _
  · exact List.sorted_insertionSort vkLE _

/-- C10 witness: baseline `{"version": "x"}` is present but unparseable,
so the handler returns the full ascending list instead of truncating. -/
theorem checkUnparsableBaselineReturnsAll_witness :
    ∃ l, handleCheckUnaliased1 (some [("version", "x")]) ["3", "$LATEST", "1"] =
        Except.ok l ∧
      l.Perm ((["3", "$LATEST", "1"].filter (fun v => v != "$LATEST")).map
        (fun v => [("version", v)])) ∧
      List.Sorted vkLE l :=
  checkUnparsableBaselineReturnsAll [("version", "x")] ["3", "$LATEST", "1"]
    (by decide) (by decide)

/-! ### C2 / C7: the in command -/

/-- A payload that resolved to bytes implies `HasPayload()` held. -/
theorem hasPayload_of_payloadData_some {files : List (String × String)}
    {spec : PayloadSpecM} {d : String}
    (hd : payloadData files spec = Except.ok (some d)) : hasPayload spec = true := by
  unfold payloadData at hd
  cases hsp : spec.payload with
  | some j => simp [hasPayload, hsp]
  | none =>
    cases hpf : spec.payloadFile with
    | some f => simp [hasPayload, hsp, hpf]
    | none =>
      rw [hsp, hpf] at hd
      simp at hd

/-- A successful invocation: non-empty payload bytes, a healthy `Invoke`
reply, the call performed exactly once. -/
theorem InvokeFunctionM_success {env : InEnv} {spec : PayloadSpecM} {d : String}
    {r : InvokeOut} (functionName : String) (aliasOpt : Option String)
    (hd : payloadData env.files spec = Except.ok (some d)) (hne : d.length ≠ 0)
    (hr : env.invokeResult = Except.ok r) (hfe : r.functionError = none) :
    InvokeFunctionM env functionName aliasOpt spec =
      ([InvokeCall.invoke (qualifiedName functionName aliasOpt) d], some r, none) := by
  simp [InvokeFunctionM, hd, hne, hr, hfe]

/-- No payload at all: `Invoke` is never called and `InvokeFunction`
returns `(nil, nil)`. -/
theorem InvokeFunctionM_noPayload {env : InEnv} {spec : PayloadSpecM}
    (functionName : String) (aliasOpt : Option String)
    (h1 : spec.payload = none) (h2 : spec.payloadFile = none) :
    InvokeFunctionM env functionName aliasOpt spec = ([], none, none) := by
  simp [InvokeFunctionM, payloadData, h1, h2]

/-- C2: the claim says a get whose payload resolved to non-empty bytes and
whose invoke (and artifact persistence) succeeded returns a version
`{"timestamp": <unix-time>}`.  In all three handler variants the non-nil
result branch returns `nil, errors.Wrap(PersistResult(..), ..)`, and
`errors.Wrap(nil, ..)` is `nil`, so a fully successful get returns a nil
response and nil error; the timestamp return below it is unreachable on
this path. -/
theorem getInvokedReturnsNilResponse (env : InEnv) (source : SourceM)
    (paramsAlias : Option String) (spec : PayloadSpecM) (d : String) (r : InvokeOut)
    (hd : payloadData env.files spec = Except.ok (some d))
    (hne : d.length ≠ 0)
    (hr : env.invokeResult = Except.ok r)
    (hfe : r.functionError = none)
    (hp : env.persistResult = none) :
    (handleIn1 env source paramsAlias spec).2 = (none, none) ∧
    (handleIn2 env source paramsAlias spec).2 = (none, none) ∧
    (handleIn3 env source paramsAlias spec none).2 = (none, none) := by
  have hinv := fun a =>
    @InvokeFunctionM_success env spec d r source.functionName a hd hne hr hfe
  have hhp := hasPayload_of_payloadData_some hd
  refine ⟨?_, ?_, ?_⟩
  · simp [handleIn1, hinv, hp]
  · simp [handleIn2, hinv, hp]
  · simp [handleIn3, hhp, hinv, hp]

/-- C2 witness: a concrete successful invocation, evaluated. -/
theorem getInvokedReturnsNilResponse_witness :
    (handleIn1 ⟨[], Except.ok ⟨"ok", none⟩, Except.error "unused", none, none, 1700000000⟩
      ⟨"id", "key", "eu-west-1", "Dummy", none⟩ none ⟨some "[1]", none⟩).2 = (none, none) ∧
    (handleIn2 ⟨[], Except.ok ⟨"ok", none⟩, Except.error "unused", none, none, 1700000000⟩
      ⟨"id", "key", "eu-west-1", "Dummy", none⟩ none ⟨some "[1]", none⟩).2 = (none, none) ∧
    (handleIn3 ⟨[], Except.ok ⟨"ok", none⟩, Except.error "unused", none, none, 1700000000⟩
      ⟨"id", "key", "eu-west-1", "Dummy", none⟩ none ⟨some "[1]", none⟩ none).2 =
      (none, none) :=
  getInvokedReturnsNilResponse
    ⟨[], Except.ok ⟨"ok", none⟩, Except.error "unused", none, none, 1700000000⟩
    ⟨"id", "key", "eu-west-1", "Dummy", none⟩ none ⟨some "[1]", none⟩ "[1]" ⟨"ok", none⟩
    rfl (by decide) rfl rfl rfl

/-- C7: a get with neither `payload` nor `payload_file` never calls
`Invoke` (the call trace is empty in all three variants), and each
variant yields its defined no-payload result: variant 1 the
"function wasn't invoked" error, variant 2 an empty response, variant 3
(no stored version) an empty response. -/
theorem getNoPayloadNoInvoke (env : InEnv) (source : SourceM)
    (paramsAlias : Option String) (spec : PayloadSpecM)
    (h1 : spec.payload = none) (h2 : spec.payloadFile = none) :
    (handleIn1 env source paramsAlias spec).1 = [] ∧
    (handleIn1 env source paramsAlias spec).2 = (none, some InErr.notInvoked) ∧
    (handleIn2 env source paramsAlias spec).1 = [] ∧
    (handleIn2 env source paramsAlias spec).2 = (some ⟨none, []⟩, none) ∧
    (∀ cv, (handleIn3 env source paramsAlias spec cv).1 = []) ∧
    (handleIn3 env source paramsAlias spec none).2 = (some ⟨none, []⟩, none) := by
  have hinv := fun a =>
    @InvokeFunctionM_noPayload env spec source.functionName a h1 h2
  have hhp : hasPayload spec = false := by
    simp [hasPayload, h1, h2]
  refine ⟨?_, ?_, ?_, ?_, ?_, ?_⟩
  · simp [handleIn1, hinv]
  · simp [handleIn1, hinv]
  · simp [handleIn2, hinv]
  · simp [handleIn2, hinv]
  · intro cv
    cases cv with
    | none => simp [handleIn3, hhp]
    | some v =>
      cases hw : env.writeVersionResult with
      | none => simp [handleIn3, hhp, hw]
      | some e => simp [handleIn3, hhp, hw]
  · simp [handleIn3, hhp]

/-- C7 witness: concrete paramless get. -/
theorem getNoPayloadNoInvoke_witness :
    (handleIn1 ⟨[], Except.error "down", Except.error "unused", none, none, 0⟩
      ⟨"id", "key", "eu-west-1", "Dummy", some "PROD"⟩ none ⟨none, none⟩).1 = [] ∧
    (handleIn1 ⟨[], Except.error "down", Except.error "unused", none, none, 0⟩
      ⟨"id", "key", "eu-west-1", "Dummy", some "PROD"⟩ none ⟨none, none⟩).2 =
      (none, some InErr.notInvoked) ∧
    (handleIn2 ⟨[], Except.error "down", Except.error "unused", none, none, 0⟩
      ⟨"id", "key", "eu-west-1", "Dummy", some "PROD"⟩ none ⟨none, none⟩).1 = [] ∧
    (handleIn2 ⟨[], Except.error "down", Except.error "unused", none, none, 0⟩
      ⟨"id", "key", "eu-west-1", "Dummy", some "PROD"⟩ none ⟨none, none⟩).2 =
      (some ⟨none, []⟩, none) ∧
    (∀ cv, (handleIn3 ⟨[], Except.error "down", Except.error "unused", none, none, 0⟩
      ⟨"id", "key", "eu-west-1", "Dummy", some "PROD"⟩ none ⟨none, none⟩ cv).1 = []) ∧
    (handleIn3 ⟨[], Except.error "down", Except.error "unused", none, none, 0⟩
      ⟨"id", "key", "eu-west-1", "Dummy", some "PROD"⟩ none ⟨none, none⟩ none).2 =
      (some ⟨none, []⟩, none) :=
  getNoPayloadNoInvoke ⟨[], Except.error "down", Except.error "unused", none, none, 0⟩
    ⟨"id", "key", "eu-west-1", "Dummy", some "PROD"⟩ none ⟨none, none⟩ rfl rfl

/-! ### C5 / C6 / C8: the put command -/

/-- C5: a put whose resolved version string is empty or non-numeric fails
in the sanity check: no management-API call is made and the handler
returns a nil response with an error. -/
theorem putInvalidVersionNoApiCall (env : OutEnv) (p : PutParams) (s : String)
    (hres : resolveVersion env.files p = Except.ok (some s))
    (hbad : s.length = 0 ∨ atoi? s = none) :
    (handleOut env p).calls = [] ∧ (handleOut env p).response = none ∧
    (handleOut env p).error.isSome := by
  have hsan : ∃ e, versionSanity (some s) = some e := by
    by_cases h0 : s.length = 0
    · exact ⟨OutError.emptyVersion, by simp [versionSanity, h0]⟩
    · rcases hbad with h | h
      · exact absurd h h0
      · exact ⟨OutError.invalidVersion s, by simp [versionSanity, h0, h]⟩
  obtain ⟨e, he⟩ := hsan
  simp [handleOut, hres, he]

/-- C5 witness: `version: "abc"`. -/
theorem putInvalidVersionNoApiCall_witness :
    (handleOut ⟨[], Except.ok [], Except.ok ⟨"1", "sha", "arn", "go1.x", 3, 128⟩, none,
        Except.ok ⟨"PROD", "1"⟩⟩ ⟨none, none, none, none, some "abc", none⟩).calls = [] ∧
    (handleOut ⟨[], Except.ok [], Except.ok ⟨"1", "sha", "arn", "go1.x", 3, 128⟩, none,
        Except.ok ⟨"PROD", "1"⟩⟩ ⟨none, none, none, none, some "abc", none⟩).response =
      none ∧
    (handleOut ⟨[], Except.ok [], Except.ok ⟨"1", "sha", "arn", "go1.x", 3, 128⟩, none,
        Except.ok ⟨"PROD", "1"⟩⟩
      ⟨none, none, none, none, some "abc", none⟩).error.isSome :=
  putInvalidVersionNoApiCall
    ⟨[], Except.ok [], Except.ok ⟨"1", "sha", "arn", "go1.x", 3, 128⟩, none,
      Except.ok ⟨"PROD", "1"⟩⟩
    ⟨none, none, none, none, some "abc", none⟩ "abc" rfl (Or.inr rfl)

/-- C6: a put with no code source, a `version_file` holding `"42\n"` and an
alias trims the newline and performs exactly one management-API call:
`UpdateAlias` retargeting the alias to version `"42"` (in particular no
`UpdateFunctionCode` call). -/
theorem putVersionFileAliasOnly (env : OutEnv) (a vf : String)
    (hfile : rvLookup env.files vf = some "42\n") :
    (handleOut env ⟨none, none, none, some a, none, some vf⟩).calls =
      [ApiCall.updateAlias a "42"] := by
  have htrim : trimRightNewlines "42\n" = "42" := rfl
  have hres : resolveVersion env.files ⟨none, none, none, some a, none, some vf⟩ =
      Except.ok (some "42") := by
    simp [resolveVersion, hfile, htrim]
  have hsan : versionSanity (some "42") = none := rfl
  have hcode : hasCodePayload ⟨none, none, none, some a, none, some vf⟩ = false := rfl
  simp only [handleOut, hres, hsan, hcode]
  cases hua : env.updateAliasResult <;> simp [aliasStep, hua]

/-- C6 witness. -/
theorem putVersionFileAliasOnly_witness :
    (handleOut ⟨[("build-output/version", "42\n")], Except.error "unused",
        Except.error "unused", none, Except.ok ⟨"PROD", "42"⟩⟩
      ⟨none, none, none, some "PROD", none, some "build-output/version"⟩).calls =
      [ApiCall.updateAlias "PROD" "42"] :=
  putVersionFileAliasOnly
    ⟨[("build-output/version", "42\n")], Except.error "unused", Except.error "unused",
      none, Except.ok ⟨"PROD", "42"⟩⟩ "PROD" "build-output/version" rfl

/-- C8: when `UpdateFunctionCode` succeeded (response version record,
persisted version file and metadata built) and the subsequent
`UpdateAlias` fails, the handler returns the error together with the
partial response from the publish — nothing is discarded. -/
theorem putAliasFailureKeepsPartialResponse (env : OutEnv) (p : PutParams)
    (v0 : Option String) (a e : String) (data : List Nat) (config : FunctionConfig)
    (hres : resolveVersion env.files p = Except.ok v0)
    (hsan : versionSanity v0 = none)
    (hcode : hasCodePayload p = true)
    (hpay : env.codePayloadResult = Except.ok data)
    (hupd : env.updateCodeResult = Except.ok config)
    (hwrite : env.writeVersionResult = none)
    (halias : p.aliasP = some a)
    (hfail : env.updateAliasResult = Except.error e) :
    handleOut env p =
      ⟨[ApiCall.updateFunctionCode data, ApiCall.updateAlias a config.version],
       some ⟨some [("version", config.version)],
             [("arn", config.functionArn), ("runtime", config.runtime),
              ("timeout", toString config.timeout),
              ("memory", toString config.memorySize)]⟩,
       some (OutError.setAlias a config.version e)⟩ := by
  simp [handleOut, hres, hsan, hcode, hpay, hupd, hwrite, aliasStep, halias, hfail]

/-- C8 witness: concrete publish-then-alias-failure run. -/
theorem putAliasFailureKeepsPartialResponse_witness :
    handleOut
      ⟨[], Except.ok [1, 2, 3], Except.ok ⟨"8", "sha", "arn", "go1.x", 3, 128⟩, none,
        Except.error "denied"⟩
      ⟨some "code.zip", none, none, some "PROD", none, none⟩ =
      ⟨[ApiCall.updateFunctionCode [1, 2, 3], ApiCall.updateAlias "PROD" "8"],
       some ⟨some [("version", "8")],
             [("arn", "arn"), ("runtime", "go1.x"), ("timeout", toString (3 : Int)),
              ("memory", toString (128 : Int))]⟩,
       some (OutError.setAlias "PROD" "8" "denied")⟩ :=
  putAliasFailureKeepsPartialResponse
    ⟨[], Except.ok [1, 2, 3], Except.ok ⟨"8", "sha", "arn", "go1.x", 3, 128⟩, none,
      Except.error "denied"⟩
    ⟨some "code.zip", none, none, some "PROD", none, none⟩
    none "PROD" "denied" [1, 2, 3] ⟨"8", "sha", "arn", "go1.x", 3, 128⟩
    rfl rfl rfl rfl rfl rfl rfl rfl

end LambdaResource
